import Mathlib

/-!
Shallow embedding of the capacity-bounded reservation engine of the
event-platform backend.

The model follows the JavaScript source:
  - `src/models/Event.js` : the Event schema (capacity, currentAttendees,
    attendees array, status enum, pre-save status derivation) and the RSVP
    schema (user, event, status enum, unique compound index on
    (user, event), pre-save duplicate check, pre-save cancellation date).
  - `src/controllers/rsvpController.js` : `createRSVP` (Join),
    `cancelRSVP` (Leave), `checkRSVPStatus` (Status).

MongoDB identifiers are modelled as natural numbers, timestamps as natural
numbers (milliseconds), numeric fields as integers.  Each MongoDB call
(`findOne`, `findOneAndUpdate`, `findOneAndDelete`, `findByIdAndUpdate`,
`create`) is one atomic operation on the database state; the controllers
are sequences of such operations, and `RsvpStep`/`runSteps` replays the
individual atomic operations so that interleavings of concurrent requests
can be analysed.
-/

namespace EventPlatform

/-- RSVP status enum (`RSVPSchema.status`): confirmed, cancelled, waitlist. -/
inductive RStatus where
  | confirmed
  | cancelled
  | waitlist
deriving DecidableEq, Repr

/-- Event status enum (`EventSchema.status`): upcoming, ongoing, completed,
cancelled. -/
inductive EStatus where
  | upcoming
  | ongoing
  | completed
  | cancelled
deriving DecidableEq, Repr

/-- One document of the RSVP collection (the Reservation Ledger).
`cancellationDate` is the optional timestamp set by the RSVP pre-save hook. -/
structure Reservation where
  user : Nat
  event : Nat
  status : RStatus
  cancellationDate : Option Nat
deriving DecidableEq, Repr

/-- One document of the Event collection (the Event Ledger).  Only the fields
the reservation engine reads or writes are modelled. -/
structure Event where
  id : Nat
  capacity : Int
  currentAttendees : Int
  attendees : List Nat
  status : EStatus
  date : Nat
deriving DecidableEq, Repr

/-- The two ledgers: the Event collection and the RSVP collection. -/
structure DB where
  events : List Event
  rsvps : List Reservation
deriving DecidableEq, Repr

/-- `findOneAndUpdate` with `new: true`: update the first document matching
`p` by `f`, returning the updated collection and the updated document;
`none` when no document matches. -/
def updateFirst {α : Type} (p : α → Bool) (f : α → α) : List α → Option (List α × α)
  | [] => none
  | x :: xs =>
    if p x then some (f x :: xs, f x)
    else
      match updateFirst p f xs with
      | none => none
      | some (ys, y) => some (x :: ys, y)

/-- `findOneAndDelete`: remove the first document matching `p`, returning the
remaining collection and the removed document; `none` when no document
matches. -/
def removeFirst {α : Type} (p : α → Bool) : List α → Option (List α × α)
  | [] => none
  | x :: xs =>
    if p x then some (xs, x)
    else
      match removeFirst p xs with
      | none => none
      | some (ys, y) => some (x :: ys, y)

/-- The `RSVP.findOne({user, event, status: confirmed})` filter. -/
def confirmedPair (eventId userId : Nat) (r : Reservation) : Bool :=
  r.user == userId && r.event == eventId && r.status == RStatus.confirmed

/-- Any document of the pair, regardless of status: the compound unique index
`{user: 1, event: 1}` of `RSVPSchema` rejects an insert exactly when such a
document exists. -/
def anyPair (eventId userId : Nat) (r : Reservation) : Bool :=
  r.user == userId && r.event == eventId

/-- The filter of the capacity gate in `createRSVP`:
`{_id: eventId, $expr: {$lt: [currentAttendees, capacity]}}`.
Note that the event `status` is not part of the filter. -/
def gatePred (eventId : Nat) (ev : Event) : Bool :=
  ev.id == eventId && decide (ev.currentAttendees < ev.capacity)

/-- `$addToSet`: append the element only when it is not already present. -/
def addToSet (u : Nat) (l : List Nat) : List Nat :=
  if l.contains u then l else l ++ [u]

/-- The update document of the capacity gate:
`{$inc: {currentAttendees: 1}, $addToSet: {attendees: userId}}`. -/
def gateUpd (userId : Nat) (ev : Event) : Event :=
  { ev with
    currentAttendees := ev.currentAttendees + 1
    attendees := addToSet userId ev.attendees }

/-- The update document of the Leave counter update:
`{$inc: {currentAttendees: -1}, $pull: {attendees: userId}}`. -/
def decUpd (userId : Nat) (ev : Event) : Event :=
  { ev with
    currentAttendees := ev.currentAttendees - 1
    attendees := ev.attendees.filter (fun a => a != userId) }

/-- The document `RSVP.create({user, event, status: confirmed})` inserts. -/
def mkConfirmed (eventId userId : Nat) : Reservation :=
  { user := userId, event := eventId, status := RStatus.confirmed,
    cancellationDate := none }

/-- Outcome of `createRSVP` (Join), as the HTTP layer reports it:
`alreadyReserved` is the 400 response of the step-1 duplicate check and of
the duplicate-key (code 11000) catch branch, `eventFullOrMissing` the 400
response when the conditional update matched nothing, `created s` the 201
response carrying `availableSpots = capacity - currentAttendees`. -/
inductive JoinResult where
  | alreadyReserved
  | eventFullOrMissing
  | created (availableSpots : Int)
deriving DecidableEq, Repr

/-- Outcome of `cancelRSVP` (Leave): `rsvpNotFound` the 404 when no confirmed
reservation exists, `eventNotFound` the 404 when the event update matched
nothing, `cancelledOk s` the 200 response with the remaining spots. -/
inductive LeaveResult where
  | rsvpNotFound
  | eventNotFound
  | cancelledOk (availableSpots : Int)
deriving DecidableEq, Repr

/-- Response body of `checkRSVPStatus`. -/
structure StatusResult where
  success : Bool
  hasRSVP : Bool
deriving DecidableEq, Repr

/-- `exports.createRSVP` of `src/controllers/rsvpController.js`, the Join
operation, run sequentially.
Step 1: `RSVP.findOne` for a confirmed reservation of the pair; 400 when one
exists.  Step 2: atomic `Event.findOneAndUpdate` with the capacity-gate
filter and the increment update.  Step 3: 400 when nothing matched.
Step 4: `RSVP.create`; the pre-save hook and the unique compound index raise
a duplicate-key error (code 11000) exactly when a document of the pair
already exists, and the catch branch then answers 400 without reverting the
step-2 increment. -/
def createRSVP (db : DB) (eventId userId : Nat) : DB × JoinResult :=
  if db.rsvps.any (confirmedPair eventId userId) then
    (db, JoinResult.alreadyReserved)
  else
    match updateFirst (gatePred eventId) (gateUpd userId) db.events with
    | none => (db, JoinResult.eventFullOrMissing)
    | some (events2, ev2) =>
      let db2 : DB := { db with events := events2 }
      if db2.rsvps.any (anyPair eventId userId) then
        (db2, JoinResult.alreadyReserved)
      else
        ({ db2 with rsvps := db2.rsvps ++ [mkConfirmed eventId userId] },
         JoinResult.created (ev2.capacity - ev2.currentAttendees))

/-- `exports.cancelRSVP` of `src/controllers/rsvpController.js`, the Leave
operation, run sequentially.
Step 1: `RSVP.findOneAndDelete` on the confirmed reservation of the pair;
404 when none exists.  Step 2: `Event.findByIdAndUpdate` decrementing
`currentAttendees` and pulling the user from `attendees`; 404 when the event
is missing (the reservation stays deleted). -/
def cancelRSVP (db : DB) (eventId userId : Nat) : DB × LeaveResult :=
  match removeFirst (confirmedPair eventId userId) db.rsvps with
  | none => (db, LeaveResult.rsvpNotFound)
  | some (rsvps2, _) =>
    let db2 : DB := { db with rsvps := rsvps2 }
    match updateFirst (fun ev => ev.id == eventId) (decUpd userId) db2.events with
    | none => (db2, LeaveResult.eventNotFound)
    | some (events2, ev2) =>
      ({ db2 with events := events2 },
       LeaveResult.cancelledOk (ev2.capacity - ev2.currentAttendees))

/-- `exports.checkRSVPStatus` of `src/controllers/rsvpController.js`:
`RSVP.findOne` on the confirmed pair, then an unconditional success response
with `hasRSVP: !!rsvp`.  The Event collection is never consulted. -/
def checkRSVPStatus (db : DB) (eventId userId : Nat) : DB × StatusResult :=
  (db, { success := true,
         hasRSVP := db.rsvps.any (confirmedPair eventId userId) })

/-- Duration constant of the Event pre-save hook:
`4 * 60 * 60 * 1000` milliseconds. -/
def fourHoursMs : Nat := 4 * 60 * 60 * 1000

/-- The Event pre-save status hook (the save-time middleware of EventSchema,
`src/models/Event.js` lines 103-115): recompute `status` from `date` and the
current time.  The trailing `else` branch (keep the stored status) mirrors
the source; over total time orders it is unreachable. -/
def eventPreSaveStatus (status : EStatus) (date now : Nat) : EStatus :=
  if now < date then EStatus.upcoming
  else if date ≤ now ∧ now < date + fourHoursMs then EStatus.ongoing
  else if date + fourHoursMs ≤ now then EStatus.completed
  else status

/-- One atomic database operation of the Join/Leave controllers.  A
concurrent interleaving of Join and Leave requests is a sequence of such
steps (reads such as the step-1 `findOne` of Join do not change the state
and are therefore not listed). -/
inductive RsvpStep where
  | gate (eventId userId : Nat)
  | insertRSVP (eventId userId : Nat)
  | deleteRSVP (eventId userId : Nat)
  | decrement (eventId userId : Nat)
deriving DecidableEq, Repr

/-- Effect of one atomic step on the ledgers.  `gate` is Join step 2 (the
conditional increment, a no-op when nothing matches); `insertRSVP` is Join
step 4 (`RSVP.create`, a no-op on its duplicate-key failure); `deleteRSVP`
is Leave step 1 (`findOneAndDelete`); `decrement` is Leave step 2. -/
def applyStep : RsvpStep → DB → DB
  | RsvpStep.gate e u, db =>
    match updateFirst (gatePred e) (gateUpd u) db.events with
    | none => db
    | some (l, _) => { db with events := l }
  | RsvpStep.insertRSVP e u, db =>
    if db.rsvps.any (anyPair e u) then db
    else { db with rsvps := db.rsvps ++ [mkConfirmed e u] }
  | RsvpStep.deleteRSVP e u, db =>
    match removeFirst (confirmedPair e u) db.rsvps with
    | none => db
    | some (l, _) => { db with rsvps := l }
  | RsvpStep.decrement e u, db =>
    match updateFirst (fun ev => ev.id == e) (decUpd u) db.events with
    | none => db
    | some (l, _) => { db with events := l }

/-- Replay a sequence of atomic steps (one interleaving of in-flight
Join/Leave requests). -/
def runSteps (steps : List RsvpStep) (db : DB) : DB :=
  steps.foldl (fun d s => applyStep s d) db

/-- Number of confirmed reservations of an event in the Reservation Ledger. -/
def confirmedCountEvent (db : DB) (eventId : Nat) : Nat :=
  db.rsvps.countP (fun r => r.event == eventId && r.status == RStatus.confirmed)

/-- Number of confirmed reservations of a (user, event) pair. -/
def confirmedCountPair (db : DB) (eventId userId : Nat) : Nat :=
  db.rsvps.countP (confirmedPair eventId userId)

/-- Number of reservation documents of a (user, event) pair, any status. -/
def pairCount (db : DB) (eventId userId : Nat) : Nat :=
  db.rsvps.countP (anyPair eventId userId)

/-- The `currentAttendees` counter of the first event with the given id. -/
def attendeesOf (db : DB) (eventId : Nat) : Option Int :=
  (db.events.find? (fun ev => ev.id == eventId)).map Event.currentAttendees

/-- Capacity invariant: the counter of every event is at most its capacity. -/
def CapInv (db : DB) : Prop :=
  ∀ ev ∈ db.events, ev.currentAttendees ≤ ev.capacity

instance : DecidablePred CapInv := fun db =>
  inferInstanceAs (Decidable (∀ ev ∈ db.events, ev.currentAttendees ≤ ev.capacity))

/-- Uniqueness invariant of the Reservation Ledger: no two documents share a
(user, event) pair — the guarantee of the compound unique index. -/
def PairUnique (db : DB) : Prop :=
  db.rsvps.Pairwise (fun r s => ¬(r.user = s.user ∧ r.event = s.event))

instance : DecidablePred PairUnique := fun db =>
  inferInstanceAs (Decidable (db.rsvps.Pairwise _))

/-! ### Lemmas about the collection primitives -/

theorem updateFirst_of_forall_false {α : Type} {p : α → Bool} (f : α → α)
    {l : List α} (h : ∀ x ∈ l, p x = false) : updateFirst p f l = none := by
  induction l with
  | nil => rfl
  | cons x xs ih =>
    have hx := h x (List.mem_cons_self x xs)
    have hxs := ih (fun z hz => h z (List.mem_cons_of_mem x hz))
    simp [updateFirst, hx, hxs]

theorem updateFirst_append {α : Type} {p : α → Bool} {f : α → α}
    {l1 : List α} (x : α) (l2 : List α)
    (h1 : ∀ z ∈ l1, p z = false) (hx : p x = true) :
    updateFirst p f (l1 ++ x :: l2) = some (l1 ++ f x :: l2, f x) := by
  induction l1 with
  | nil => simp [updateFirst, hx]
  | cons a l ih =>
    have ha := h1 a (List.mem_cons_self a l)
    have hl := ih (fun z hz => h1 z (List.mem_cons_of_mem a hz))
    simp [updateFirst, ha, hl]

theorem updateFirst_eq_some {α : Type} {p : α → Bool} {f : α → α} :
    ∀ {l l' : List α} {y : α}, updateFirst p f l = some (l', y) →
    ∃ l1 x l2, l = l1 ++ x :: l2 ∧ (∀ z ∈ l1, p z = false) ∧ p x = true ∧
      l' = l1 ++ f x :: l2 ∧ y = f x := by
  intro l
  induction l with
  | nil => intro l' y h; simp [updateFirst] at h
  | cons a as ih =>
    intro l' y h
    by_cases ha : p a = true
    · rw [updateFirst, if_pos ha] at h
      obtain ⟨h1, h2⟩ := Prod.mk.injEq .. ▸ Option.some.injEq .. ▸ h
      exact ⟨[], a, as, by simp, by simp, ha, by simp [← h1], h2.symm⟩
    · rw [updateFirst, if_neg ha] at h
      cases hrec : updateFirst p f as with
      | none => rw [hrec] at h; simp at h
      | some v =>
        rw [hrec] at h
        obtain ⟨vl, vy⟩ := v
        simp only [Option.some.injEq, Prod.mk.injEq] at h
        obtain ⟨l1, x, l2, e1, e2, e3, e4, e5⟩ := ih hrec
        refine ⟨a :: l1, x, l2, by simp [e1], ?_, e3, by simp [← h.1, e4], by rw [← h.2, e5]⟩
        intro z hz
        rcases List.mem_cons.mp hz with hza | hz2
    -- the head of the prefix fails the predicate; the rest comes from the tail
        · rw [hza]; exact Bool.not_eq_true (p a) ▸ ha
        · exact e2 z hz2

theorem removeFirst_of_forall_false {α : Type} {p : α → Bool}
    {l : List α} (h : ∀ x ∈ l, p x = false) : removeFirst p l = none := by
  induction l with
  | nil => rfl
  | cons x xs ih =>
    have hx := h x (List.mem_cons_self x xs)
    have hxs := ih (fun z hz => h z (List.mem_cons_of_mem x hz))
    simp [removeFirst, hx, hxs]

theorem removeFirst_append {α : Type} {p : α → Bool}
    {l1 : List α} (x : α) (l2 : List α)
    (h1 : ∀ z ∈ l1, p z = false) (hx : p x = true) :
    removeFirst p (l1 ++ x :: l2) = some (l1 ++ l2, x) := by
  induction l1 with
  | nil => simp [removeFirst, hx]
  | cons a l ih =>
    have ha := h1 a (List.mem_cons_self a l)
    have hl := ih (fun z hz => h1 z (List.mem_cons_of_mem a hz))
    simp [removeFirst, ha, hl]

theorem removeFirst_eq_some {α : Type} {p : α → Bool} :
    ∀ {l l' : List α} {y : α}, removeFirst p l = some (l', y) →
    ∃ l1 l2, l = l1 ++ y :: l2 ∧ (∀ z ∈ l1, p z = false) ∧ p y = true ∧
      l' = l1 ++ l2 := by
  intro l
  induction l with
  | nil => intro l' y h; simp [removeFirst] at h
  | cons a as ih =>
    intro l' y h
    by_cases ha : p a = true
    · rw [removeFirst, if_pos ha] at h
      obtain ⟨h1, h2⟩ := Prod.mk.injEq .. ▸ Option.some.injEq .. ▸ h
      exact ⟨[], as, by simp [h2], by simp, h2 ▸ ha, by simp [← h1]⟩
    · rw [removeFirst, if_neg ha] at h
      cases hrec : removeFirst p as with
      | none => rw [hrec] at h; simp at h
      | some v =>
        rw [hrec] at h
        obtain ⟨vl, vy⟩ := v
        simp only [Option.some.injEq, Prod.mk.injEq] at h
        obtain ⟨l1, l2, e1, e2, e3, e4⟩ := ih hrec
        refine ⟨a :: l1, l2, by simp [e1, h.2], ?_, h.2 ▸ e3, by simp [← h.1, e4]⟩
        intro z hz
        rcases List.mem_cons.mp hz with hza | hz2
        · rw [hza]; exact Bool.not_eq_true (p a) ▸ ha
        · exact e2 z hz2

/-! ### Invariant preservation by the atomic steps -/

theorem capInv_applyStep (s : RsvpStep) (db : DB) (h : CapInv db) :
    CapInv (applyStep s db) := by
  cases s with
  | gate e u =>
    dsimp only [applyStep]
    cases hg : updateFirst (gatePred e) (gateUpd u) db.events with
    | none => exact h
    | some v =>
      obtain ⟨l, y⟩ := v
      obtain ⟨l1, x, l2, e1, _, e3, e4, _⟩ := updateFirst_eq_some hg
      intro ev hev
      rw [e4] at hev
      rcases List.mem_append.mp hev with h1 | h2
      · exact h ev (by rw [e1]; exact List.mem_append_left _ h1)
      · rcases List.mem_cons.mp h2 with h2a | h3
        · have hx : x.currentAttendees < x.capacity := by
            have := e3
            unfold gatePred at this
            simp only [Bool.and_eq_true, decide_eq_true_eq] at this
            exact this.2
          rw [h2a]
          dsimp only [gateUpd]
          omega
        · exact h ev (by rw [e1]; exact List.mem_append_right _ (List.mem_cons_of_mem _ h3))
  | insertRSVP e u =>
    dsimp only [applyStep]
    split <;> exact h
  | deleteRSVP e u =>
    dsimp only [applyStep]
    cases hg : removeFirst (confirmedPair e u) db.rsvps with
    | none => exact h
    | some v => exact h
  | decrement e u =>
    dsimp only [applyStep]
    cases hg : updateFirst (fun ev => ev.id == e) (decUpd u) db.events with
    | none => exact h
    | some v =>
      obtain ⟨l, y⟩ := v
      obtain ⟨l1, x, l2, e1, _, _, e4, _⟩ := updateFirst_eq_some hg
      intro ev hev
      rw [e4] at hev
      rcases List.mem_append.mp hev with h1 | h2
      · exact h ev (by rw [e1]; exact List.mem_append_left _ h1)
      · rcases List.mem_cons.mp h2 with h2a | h3
        · have hx : x.currentAttendees ≤ x.capacity :=
            h x (by rw [e1]; exact List.mem_append_right _ (List.mem_cons_self _ _))
          rw [h2a]
          dsimp only [decUpd]
          omega
        · exact h ev (by rw [e1]; exact List.mem_append_right _ (List.mem_cons_of_mem _ h3))

theorem capInv_runSteps (steps : List RsvpStep) (db0 : DB) (h0 : CapInv db0) :
    CapInv (runSteps steps db0) := by
  induction steps generalizing db0 with
  | nil => exact h0
  | cons s rest ih => exact ih _ (capInv_applyStep s db0 h0)

theorem pairUnique_applyStep (s : RsvpStep) (db : DB) (h : PairUnique db) :
    PairUnique (applyStep s db) := by
  cases s with
  | gate e u =>
    dsimp only [applyStep]
    cases hg : updateFirst (gatePred e) (gateUpd u) db.events with
    | none => exact h
    | some v => exact h
  | insertRSVP e u =>
    dsimp only [applyStep]
    by_cases hc : db.rsvps.any (anyPair e u) = true
    · simp only [hc, if_true]; exact h
    · rw [Bool.not_eq_true] at hc
      simp only [hc, Bool.false_eq_true, if_false]
      unfold PairUnique at h ⊢
      rw [List.pairwise_append]
      refine ⟨h, List.pairwise_singleton _ _, ?_⟩
      intro r hr r' hr'
      rw [List.mem_singleton.mp hr']
      have hfalse : anyPair e u r = false := by
        have hall := List.any_eq_false.mp hc
        exact Bool.not_eq_true (anyPair e u r) ▸ hall r hr
    -- a record of the pair would have made the uniqueness check fire
      unfold anyPair at hfalse
      simp only [Bool.and_eq_false_iff, beq_eq_false_iff_ne] at hfalse
      dsimp only [mkConfirmed]
      rintro ⟨hu, he⟩
      rcases hfalse with hf | hf
      · exact hf hu
      · exact hf he
  | deleteRSVP e u =>
    dsimp only [applyStep]
    cases hg : removeFirst (confirmedPair e u) db.rsvps with
    | none => exact h
    | some v =>
      obtain ⟨l, y⟩ := v
      obtain ⟨l1, l2, e1, _, _, e4⟩ := removeFirst_eq_some hg
      unfold PairUnique at h ⊢
      dsimp only
      rw [e4]
      rw [e1] at h
      exact h.sublist ((List.append_sublist_append_left _).mpr (List.sublist_cons_self _ _))
  | decrement e u =>
    dsimp only [applyStep]
    cases hg : updateFirst (fun ev => ev.id == e) (decUpd u) db.events with
    | none => exact h
    | some v => exact h

theorem pairUnique_runSteps (steps : List RsvpStep) (db0 : DB) (h0 : PairUnique db0) :
    PairUnique (runSteps steps db0) := by
  induction steps generalizing db0 with
  | nil => exact h0
  | cons s rest ih => exact ih _ (pairUnique_applyStep s db0 h0)

theorem countP_anyPair_le_one {l : List Reservation}
    (h : l.Pairwise (fun r s => ¬(r.user = s.user ∧ r.event = s.event)))
    (e u : Nat) : l.countP (anyPair e u) ≤ 1 := by
  induction l with
  | nil => simp
  | cons r rs ih =>
    rw [List.countP_cons]
    obtain ⟨hhead, htail⟩ := List.pairwise_cons.mp h
    by_cases hr : anyPair e u r = true
    · have h0 : rs.countP (anyPair e u) = 0 := by
        rw [List.countP_eq_zero]
        intro s hs
        have hd := hhead s hs
        unfold anyPair at hr ⊢
        simp only [Bool.and_eq_true, beq_iff_eq] at hr
        simp only [Bool.and_eq_true, beq_iff_eq, not_and]
        intro hsu hse
        exact absurd ⟨by rw [hr.1, hsu], by rw [hr.2, hse]⟩ hd
      simp [hr, h0]
    · simp only [hr, if_false]
      simpa using ih htail

theorem confirmed_le_anyPair (l : List Reservation) (e u : Nat) :
    l.countP (confirmedPair e u) ≤ l.countP (anyPair e u) := by
  induction l with
  | nil => simp
  | cons r rs ih =>
    rw [List.countP_cons, List.countP_cons]
    have : confirmedPair e u r = true → anyPair e u r = true := by
      unfold confirmedPair anyPair
      simp only [Bool.and_eq_true, and_imp]
      exact fun h1 h2 _ => ⟨h1, h2⟩
    by_cases hc : confirmedPair e u r = true
    · simp [hc, this hc]; omega
    · simp only [hc, if_false]
      by_cases ha : anyPair e u r = true <;> simp [ha] <;> omega

/-! ### Success paths of the two controllers -/

theorem confirmedPair_of_anyPair_false {e u : Nat} {r : Reservation}
    (h : anyPair e u r = false) : confirmedPair e u r = false := by
  unfold anyPair at h
  unfold confirmedPair
  rcases Bool.and_eq_false_iff.mp h with h1 | h1 <;> simp [h1]

/-- Shape of a successful Join: when no reservation document of the pair
exists and the first event with the given id has room, `createRSVP` updates
that event, appends the confirmed reservation, and answers 201. -/
theorem createRSVP_success {db : DB} {l1 l2 : List Event} {ev : Event} {e u : Nat}
    (hev : db.events = l1 ++ ev :: l2)
    (hl1 : ∀ x ∈ l1, (x.id == e) = false)
    (hid : ev.id = e)
    (hcap : ev.currentAttendees < ev.capacity)
    (hpair : ∀ r ∈ db.rsvps, anyPair e u r = false) :
    createRSVP db e u =
      (⟨l1 ++ gateUpd u ev :: l2, db.rsvps ++ [mkConfirmed e u]⟩,
       JoinResult.created (ev.capacity - (ev.currentAttendees + 1))) := by
  have hconf : db.rsvps.any (confirmedPair e u) = false := by
    rw [List.any_eq_false]
    intro r hr
    rw [confirmedPair_of_anyPair_false (hpair r hr)]
    exact Bool.false_ne_true
  have hany : db.rsvps.any (anyPair e u) = false := by
    rw [List.any_eq_false]
    intro r hr
    rw [hpair r hr]
    exact Bool.false_ne_true
  have hgate : gatePred e ev = true := by
    unfold gatePred
    simp [hid, hcap]
  have hl1g : ∀ x ∈ l1, gatePred e x = false := by
    intro x hx
    unfold gatePred
    simp [hl1 x hx]
  unfold createRSVP
  rw [hconf, hev, updateFirst_append ev l2 hl1g hgate]
  simp only [Bool.false_eq_true, if_false, hany]
  simp [gateUpd]

/-- Shape of a successful Leave: when the first confirmed document of the
pair is `r` and the first event with the given id is `ev`, `cancelRSVP`
deletes `r`, decrements `ev`, and answers 200. -/
theorem cancelRSVP_success {db : DB} {r1 r2 : List Reservation} {r : Reservation}
    {l1 l2 : List Event} {ev : Event} {e u : Nat}
    (hrs : db.rsvps = r1 ++ r :: r2)
    (hr1 : ∀ x ∈ r1, confirmedPair e u x = false)
    (hr : confirmedPair e u r = true)
    (hev : db.events = l1 ++ ev :: l2)
    (hl1 : ∀ x ∈ l1, (x.id == e) = false)
    (hid : ev.id = e) :
    cancelRSVP db e u =
      (⟨l1 ++ decUpd u ev :: l2, r1 ++ r2⟩,
       LeaveResult.cancelledOk (ev.capacity - (ev.currentAttendees - 1))) := by
  have hide : (ev.id == e) = true := by simp [hid]
  unfold cancelRSVP
  rw [hrs, removeFirst_append r r2 hr1 hr]
  dsimp only
  rw [hev, updateFirst_append ev l2 hl1 hide]
  dsimp only [decUpd]

/-! ### Claim theorems -/

/-- Initial state for the C1 analysis: one event (id 0, capacity 5, counter 0)
and a waitlist-status reservation document for (user 9, event 0).  The
counter invariant holds here: 0 confirmed reservations, counter 0. -/
def dbDup : DB :=
  ⟨[⟨0, 5, 0, [], EStatus.upcoming, 100⟩], [⟨9, 0, RStatus.waitlist, none⟩]⟩

/-- Interleaving of two concurrent Join requests for (user 9, event 0) on an
empty event, written as the atomic database steps each request performs:
both step-1 duplicate reads happen first (reads change nothing and are
omitted), then request A runs its conditional increment and its insert, then
request B runs its conditional increment and its insert (which fails on the
unique index, a no-op on the state). -/
def twoJoinInterleaving : List RsvpStep :=
  [RsvpStep.gate 0 9, RsvpStep.insertRSVP 0 9,
   RsvpStep.gate 0 9, RsvpStep.insertRSVP 0 9]

/-- Base state for the interleaving of C1: one event, empty reservation
ledger. -/
def dbTwoJoin : DB := ⟨[⟨0, 5, 0, [], EStatus.upcoming, 100⟩], []⟩

/-- C1: the claim is false on the code.  On the Join path where the
conditional increment succeeds and the reservation insert then fails with a
duplicate-key error, `createRSVP` returns AlreadyReserved WITHOUT reversing
the increment: starting from a state satisfying the counter invariant
(counter 0, zero confirmed reservations), the completed Join leaves the
counter at 1 with still zero confirmed reservations.  The same disagreement
arises from the interleaving of two concurrent Joins of one user: the final
state has counter 2 and one confirmed reservation. -/
theorem join_duplicate_failure_breaks_count_invariant :
    (confirmedCountEvent dbDup 0 = 0 ∧ attendeesOf dbDup 0 = some 0)
    ∧ (createRSVP dbDup 0 9).2 = JoinResult.alreadyReserved
    ∧ attendeesOf (createRSVP dbDup 0 9).1 0 = some 1
    ∧ confirmedCountEvent (createRSVP dbDup 0 9).1 0 = 0
    ∧ attendeesOf (runSteps twoJoinInterleaving dbTwoJoin) 0 = some 2
    ∧ confirmedCountEvent (runSteps twoJoinInterleaving dbTwoJoin) 0 = 1 := by
  decide

/-- State for the C2 analysis: the event has one attendee (user 4, with its
confirmed reservation) and a cancelled-status reservation document exists for
(user 8, event 0). -/
def dbLeak : DB :=
  ⟨[⟨0, 3, 1, [4], EStatus.upcoming, 100⟩],
   [⟨4, 0, RStatus.confirmed, none⟩, ⟨8, 0, RStatus.cancelled, some 5⟩]⟩

/-- C2: the claim is false on the code.  On the failure path where the
reservation-record creation fails (duplicate-key error against the unique
(user, event) index), `createRSVP` answers AlreadyReserved but
`currentAttendees` has increased by one (from 1 to 2), not by zero: the
catch branch for error code 11000 performs no compensating decrement. -/
theorem join_insert_failure_increments_counter :
    attendeesOf dbLeak 0 = some 1
    ∧ (createRSVP dbLeak 0 8).2 = JoinResult.alreadyReserved
    ∧ attendeesOf (createRSVP dbLeak 0 8).1 0 = some 2 := by
  decide

/-- State for the C5 counterexample: a cancelled event with free capacity,
and a completed event with free capacity, both with empty reservation
ledger entries. -/
def dbStatusFree : DB :=
  ⟨[⟨0, 5, 0, [], EStatus.cancelled, 100⟩, ⟨1, 5, 0, [], EStatus.completed, 100⟩], []⟩

/-- C5 counterexample: the claim is false on the code.  The capacity-gate
filter of `createRSVP` is `{_id, currentAttendees < capacity}` and never
consults `status`: a Join on a cancelled event (id 0) and on a completed
event (id 1), each with free capacity, is accepted with 201, increments the
counter, and creates a confirmed reservation — it is not rejected. -/
theorem join_accepts_cancelled_and_completed_events :
    (createRSVP dbStatusFree 0 3).2 = JoinResult.created 4
    ∧ confirmedCountEvent (createRSVP dbStatusFree 0 3).1 0 = 1
    ∧ attendeesOf (createRSVP dbStatusFree 0 3).1 0 = some 1
    ∧ (createRSVP dbStatusFree 1 3).2 = JoinResult.created 4
    ∧ confirmedCountEvent (createRSVP dbStatusFree 1 3).1 1 = 1
    ∧ attendeesOf (createRSVP dbStatusFree 1 3).1 1 = some 1 := by
  decide

/-- C6 counterexample: the claim is false on the code.  The pre-save
derivation does not special-case a stored status of cancelled: saving a
cancelled event whose date has arrived recomputes its status to ongoing. -/
theorem preSave_recomputes_cancelled_status :
    eventPreSaveStatus EStatus.cancelled 0 0 = EStatus.ongoing
    ∧ EStatus.ongoing ≠ EStatus.cancelled := by
  decide

/-- C6 amended: for every stored status and all times, the pre-save
derivation equals the reference piecewise definition — upcoming before the
scheduled time, ongoing within four hours of it, completed afterwards —
with the previously stored status (cancelled included) ignored. -/
theorem preSave_status_piecewise (s : EStatus) (d n : Nat) :
    eventPreSaveStatus s d n =
      if n < d then EStatus.upcoming
      else if n < d + fourHoursMs then EStatus.ongoing
      else EStatus.completed := by
  unfold eventPreSaveStatus
  split_ifs <;> first | rfl | omega

/-- C8: Leave with no confirmed reservation for the pair answers NotFound
and returns the database exactly as it was: both ledgers — counter, attendee
array, and every reservation document — are unchanged. -/
theorem leave_without_confirmed_is_notFound (db : DB) (e u : Nat)
    (h : ∀ r ∈ db.rsvps, confirmedPair e u r = false) :
    cancelRSVP db e u = (db, LeaveResult.rsvpNotFound) := by
  unfold cancelRSVP
  rw [removeFirst_of_forall_false h]

/-- Witness for C8 at a concrete state: a cancelled-status document for the
pair exists but no confirmed one. -/
theorem leave_without_confirmed_is_notFound_witness :
    cancelRSVP ⟨[⟨4, 3, 1, [2], EStatus.upcoming, 50⟩],
                [⟨2, 4, RStatus.confirmed, none⟩, ⟨7, 4, RStatus.cancelled, some 9⟩]⟩ 4 7
      = (⟨[⟨4, 3, 1, [2], EStatus.upcoming, 50⟩],
          [⟨2, 4, RStatus.confirmed, none⟩, ⟨7, 4, RStatus.cancelled, some 9⟩]⟩,
         LeaveResult.rsvpNotFound) :=
  leave_without_confirmed_is_notFound _ 4 7 (by decide)

/-- State for the C9 counterexample: one confirmed reservation for
(user 6, event 1) and the matching event with one attendee. -/
def dbOneConfirmed : DB :=
  ⟨[⟨1, 4, 1, [6], EStatus.upcoming, 100⟩], [⟨6, 1, RStatus.confirmed, none⟩]⟩

/-- C9 counterexample: the claim is false on the code.  A successful Leave
uses `findOneAndDelete`: afterwards the Reservation Ledger is empty — the
record does not still exist with status cancelled, it is physically
removed (and no cancellation timestamp is ever set by this path). -/
theorem leave_physically_deletes_record :
    (cancelRSVP dbOneConfirmed 1 6).2 = LeaveResult.cancelledOk 4
    ∧ (cancelRSVP dbOneConfirmed 1 6).1.rsvps = [] := by
  decide

/-- C10: the Status operation modifies neither ledger, always answers with
success, and reports hasRSVP exactly when a confirmed reservation of the
pair exists; its response never depends on the Event Ledger, so a missing
event yields the same success response (hasRSVP false when no reservation
exists) and never a NotFound error. -/
theorem status_check_pure_and_total (db : DB) (e u : Nat) :
    (checkRSVPStatus db e u).1 = db
    ∧ (checkRSVPStatus db e u).2.success = true
    ∧ ((checkRSVPStatus db e u).2.hasRSVP = true ↔
        ∃ r ∈ db.rsvps, r.user = u ∧ r.event = e ∧ r.status = RStatus.confirmed)
    ∧ ∀ evs : List Event, (checkRSVPStatus ⟨evs, db.rsvps⟩ e u).2 = (checkRSVPStatus db e u).2 := by
  refine ⟨rfl, rfl, ?_, fun evs => rfl⟩
  unfold checkRSVPStatus confirmedPair
  simp only [List.any_eq_true, Bool.and_eq_true, beq_iff_eq]
  constructor
  · rintro ⟨r, hr, ⟨hu, he⟩, hs⟩
    exact ⟨r, hr, hu, he, hs⟩
  · rintro ⟨r, hr, hu, he, hs⟩
    exact ⟨r, hr, ⟨hu, he⟩, hs⟩

/-- C3: across every interleaving of the atomic steps of Join and Leave
requests (the conditional increment, the reservation insert, the
reservation delete, the decrement), the counter of every event stays at most its
capacity, because the only step that increments is the single conditional
update guarded by currentAttendees < capacity. -/
theorem currentAttendees_never_exceeds_capacity (db0 : DB) (steps : List RsvpStep)
    (h0 : CapInv db0) : CapInv (runSteps steps db0) :=
  capInv_runSteps steps db0 h0

/-- Witness for C3: a capacity-2 event under three interleaved Join
attempts. -/
theorem currentAttendees_never_exceeds_capacity_witness :
    CapInv (runSteps
      [RsvpStep.gate 0 1, RsvpStep.insertRSVP 0 1, RsvpStep.gate 0 2,
       RsvpStep.insertRSVP 0 2, RsvpStep.gate 0 3, RsvpStep.insertRSVP 0 3]
      ⟨[⟨0, 2, 0, [], EStatus.upcoming, 10⟩], []⟩) :=
  currentAttendees_never_exceeds_capacity _ _ (by decide)

/-- C4: when the Reservation Ledger starts with no two documents of the same
(user, event) pair (the unique-index guarantee), every interleaving of
Join/Leave atomic steps keeps at most one confirmed reservation per pair;
and a Join for a pair that already has a confirmed reservation is rejected
with AlreadyReserved, with the database unchanged (no second record). -/
theorem at_most_one_confirmed_reservation_per_pair :
    (∀ (db0 : DB) (steps : List RsvpStep) (e u : Nat), PairUnique db0 →
      confirmedCountPair (runSteps steps db0) e u ≤ 1)
    ∧ ∀ (db : DB) (e u : Nat), db.rsvps.any (confirmedPair e u) = true →
      createRSVP db e u = (db, JoinResult.alreadyReserved) := by
  constructor
  · intro db0 steps e u h0
    have hp := pairUnique_runSteps steps db0 h0
    exact le_trans (confirmed_le_anyPair _ e u) (countP_anyPair_le_one hp e u)
  · intro db e u h
    unfold createRSVP
    simp [h]

/-- Witness for C4: a duplicated Join interleaving keeps the count at one,
and a Join against an existing confirmed reservation is rejected in place. -/
theorem at_most_one_confirmed_reservation_per_pair_witness :
    confirmedCountPair (runSteps
      [RsvpStep.gate 6 1, RsvpStep.insertRSVP 6 1,
       RsvpStep.gate 6 1, RsvpStep.insertRSVP 6 1]
      ⟨[⟨6, 9, 0, [], EStatus.upcoming, 0⟩], []⟩) 6 1 ≤ 1
    ∧ createRSVP ⟨[⟨6, 9, 1, [1], EStatus.upcoming, 0⟩],
                  [⟨1, 6, RStatus.confirmed, none⟩]⟩ 6 1
      = (⟨[⟨6, 9, 1, [1], EStatus.upcoming, 0⟩],
          [⟨1, 6, RStatus.confirmed, none⟩]⟩, JoinResult.alreadyReserved) :=
  ⟨at_most_one_confirmed_reservation_per_pair.1 _ _ 6 1 (by decide),
   at_most_one_confirmed_reservation_per_pair.2 _ 6 1 (by decide)⟩

/-- C5 amended: the Join gate checks only existence and free capacity — on
an event whose status is cancelled or completed, with a free spot and no
reservation document for the pair, Join succeeds: it increments the counter,
adds the user, creates the confirmed reservation and answers 201 with the
remaining spots, exactly as for an upcoming event. -/
theorem join_ignores_event_status {db : DB} {l1 l2 : List Event} {ev : Event} {e u : Nat}
    (_hst : ev.status = EStatus.cancelled ∨ ev.status = EStatus.completed)
    (hev : db.events = l1 ++ ev :: l2)
    (hl1 : ∀ x ∈ l1, (x.id == e) = false)
    (hid : ev.id = e)
    (hcap : ev.currentAttendees < ev.capacity)
    (hpair : ∀ r ∈ db.rsvps, anyPair e u r = false) :
    createRSVP db e u =
      (⟨l1 ++ gateUpd u ev :: l2, db.rsvps ++ [mkConfirmed e u]⟩,
       JoinResult.created (ev.capacity - (ev.currentAttendees + 1))) :=
  createRSVP_success hev hl1 hid hcap hpair

/-- Witness for C5 amended: a Join on a concrete cancelled event with two of
five spots taken. -/
theorem join_ignores_event_status_witness :
    createRSVP ⟨[⟨8, 5, 2, [1, 2], EStatus.cancelled, 100⟩], []⟩ 8 3
      = (⟨[⟨8, 5, 3, [1, 2, 3], EStatus.cancelled, 100⟩],
          [⟨3, 8, RStatus.confirmed, none⟩]⟩,
         JoinResult.created 2) :=
  @join_ignores_event_status ⟨[⟨8, 5, 2, [1, 2], EStatus.cancelled, 100⟩], []⟩ [] []
    ⟨8, 5, 2, [1, 2], EStatus.cancelled, 100⟩ 8 3 (Or.inl rfl) rfl (by decide) rfl
    (by decide) (by decide)

/-- State for the C7 counterexample: a waitlist-status document for the pair
(user 5, event 2), so no confirmed reservation exists and the event has a
free spot. -/
def dbWaitlist : DB :=
  ⟨[⟨2, 2, 0, [], EStatus.upcoming, 100⟩], [⟨5, 2, RStatus.waitlist, none⟩]⟩

/-- C7 counterexample: the claim is false on the code as stated.  With no
confirmed reservation for the pair and a free spot, the very first Join can
still fail: a reservation document of another status (here waitlist) makes
the insert hit the unique (user, event) index, and Join answers
AlreadyReserved instead of succeeding. -/
theorem roundtrip_first_join_fails :
    confirmedCountPair dbWaitlist 2 5 = 0
    ∧ attendeesOf dbWaitlist 2 = some 0
    ∧ (createRSVP dbWaitlist 2 5).2 = JoinResult.alreadyReserved := by
  decide

theorem find?_first {α : Type} {p : α → Bool} {l1 : List α} (x : α) (l2 : List α)
    (h1 : ∀ z ∈ l1, p z = false) (hx : p x = true) :
    (l1 ++ x :: l2).find? p = some x := by
  induction l1 with
  | nil => simp [List.find?_cons_of_pos, hx]
  | cons a l ih =>
    have ha := h1 a (List.mem_cons_self a l)
    have hl := ih (fun z hz => h1 z (List.mem_cons_of_mem a hz))
    rw [List.cons_append, List.find?_cons_of_neg _ (by simp [ha]), hl]

theorem removeFirst_none_forall {α : Type} {p : α → Bool} :
    ∀ {l : List α}, removeFirst p l = none → ∀ x ∈ l, p x = false := by
  intro l
  induction l with
  | nil => intro _ x hx; simp at hx
  | cons a as ih =>
    intro h x hx
    by_cases ha : p a = true
    · rw [removeFirst, if_pos ha] at h
      simp at h
    · rw [removeFirst, if_neg ha] at h
      rcases List.mem_cons.mp hx with hxa | hx2
      · rw [hxa]
        exact Bool.not_eq_true (p a) ▸ ha
      · cases hrec : removeFirst p as with
        | none => exact ih hrec x hx2
        | some v => rw [hrec] at h; simp at h

/-- C7 amended: starting with no reservation document of any status for the
pair and an event with at least one free spot, Join then Leave then Join
succeeds at each step, and after the Leave the counter equals its value
before the first Join. -/
theorem join_leave_join_roundtrip {db : DB} {l1 l2 : List Event} {ev : Event} {e u : Nat}
    (hev : db.events = l1 ++ ev :: l2)
    (hl1 : ∀ x ∈ l1, (x.id == e) = false)
    (hid : ev.id = e)
    (hcap : ev.currentAttendees < ev.capacity)
    (hpair : ∀ r ∈ db.rsvps, anyPair e u r = false) :
    (createRSVP db e u).2 = JoinResult.created (ev.capacity - (ev.currentAttendees + 1))
    ∧ (cancelRSVP (createRSVP db e u).1 e u).2
        = LeaveResult.cancelledOk (ev.capacity - ev.currentAttendees)
    ∧ attendeesOf (cancelRSVP (createRSVP db e u).1 e u).1 e = attendeesOf db e
    ∧ (createRSVP (cancelRSVP (createRSVP db e u).1 e u).1 e u).2
        = JoinResult.created (ev.capacity - (ev.currentAttendees + 1)) := by
  have h1 := createRSVP_success hev hl1 hid hcap hpair
  have hr1 : ∀ x ∈ db.rsvps, confirmedPair e u x = false :=
    fun x hx => confirmedPair_of_anyPair_false (hpair x hx)
  have hrconf : confirmedPair e u (mkConfirmed e u) = true := by
    simp [confirmedPair, mkConfirmed]
  have hidg : (gateUpd u ev).id = e := by
    dsimp only [gateUpd]
    exact hid
  have h2 := @cancelRSVP_success ⟨l1 ++ gateUpd u ev :: l2, db.rsvps ++ [mkConfirmed e u]⟩
      db.rsvps [] (mkConfirmed e u) l1 l2 (gateUpd u ev) e u rfl hr1 hrconf rfl hl1 hidg
  have hidd : (decUpd u (gateUpd u ev)).id = e := by
    dsimp only [decUpd, gateUpd]
    exact hid
  have hcapd : (decUpd u (gateUpd u ev)).currentAttendees
      < (decUpd u (gateUpd u ev)).capacity := by
    dsimp only [decUpd, gateUpd]
    omega
  have h3 := @createRSVP_success ⟨l1 ++ decUpd u (gateUpd u ev) :: l2, db.rsvps⟩
      l1 l2 (decUpd u (gateUpd u ev)) e u rfl hl1 hidd hcapd hpair
  refine ⟨?_, ?_, ?_, ?_⟩
  · rw [h1]
  · rw [h1]
    dsimp only
    rw [h2]
    dsimp only [gateUpd]
    congr 1
    omega
  · rw [h1]
    dsimp only
    rw [h2]
    dsimp only [attendeesOf]
    rw [hev]
    rw [find?_first (decUpd u (gateUpd u ev)) l2 hl1 (by simp [hidd]),
        find?_first ev l2 hl1 (by simp [hid])]
    simp only [Option.map_some']
    dsimp only [decUpd, gateUpd]
    congr 1
    omega
  · rw [h1]
    dsimp only
    rw [h2]
    dsimp only
    simp only [List.append_nil]
    rw [h3]
    dsimp only [decUpd, gateUpd]
    congr 1
    omega

/-- Witness state for C7 amended: event 2 with one of three spots taken by
user 9, who holds the only reservation document; user 5 runs the round
trip. -/
def dbRoundtrip : DB :=
  ⟨[⟨2, 3, 1, [9], EStatus.upcoming, 10⟩], [⟨9, 2, RStatus.confirmed, none⟩]⟩

/-- Witness for C7 amended at the concrete state `dbRoundtrip`. -/
theorem join_leave_join_roundtrip_witness :
    (createRSVP dbRoundtrip 2 5).2 = JoinResult.created 1
    ∧ (cancelRSVP (createRSVP dbRoundtrip 2 5).1 2 5).2 = LeaveResult.cancelledOk 2
    ∧ attendeesOf (cancelRSVP (createRSVP dbRoundtrip 2 5).1 2 5).1 2
        = attendeesOf dbRoundtrip 2
    ∧ (createRSVP (cancelRSVP (createRSVP dbRoundtrip 2 5).1 2 5).1 2 5).2
        = JoinResult.created 1 :=
  @join_leave_join_roundtrip dbRoundtrip [] [] ⟨2, 3, 1, [9], EStatus.upcoming, 10⟩ 2 5
    rfl (by decide) rfl (by decide) (by decide)

/-- C9 amended: a successful Leave physically removes the first confirmed
reservation document of the pair from the Reservation Ledger: afterwards the
ledger holds one document fewer, the confirmed count of the pair has dropped
by one, and no cancelled-status document for the pair has appeared (no
record is transitioned to cancelled, no cancellation timestamp set). -/
theorem leave_removes_confirmed_record (db : DB) (e u : Nat)
    (h : db.rsvps.any (confirmedPair e u) = true) :
    (cancelRSVP db e u).1.rsvps.length + 1 = db.rsvps.length
    ∧ confirmedCountPair (cancelRSVP db e u).1 e u + 1 = confirmedCountPair db e u
    ∧ (cancelRSVP db e u).1.rsvps.countP
        (fun r => anyPair e u r && r.status == RStatus.cancelled)
      = db.rsvps.countP (fun r => anyPair e u r && r.status == RStatus.cancelled) := by
  cases hrem : removeFirst (confirmedPair e u) db.rsvps with
  | none =>
    exfalso
    rw [List.any_eq_true] at h
    obtain ⟨r, hr, hp⟩ := h
    rw [removeFirst_none_forall hrem r hr] at hp
    exact Bool.false_ne_true hp
  | some v =>
    obtain ⟨l', y⟩ := v
    obtain ⟨p1, p2, e1, _, e3, e4⟩ := removeFirst_eq_some hrem
    have hstatus : y.status = RStatus.confirmed := by
      unfold confirmedPair at e3
      simp only [Bool.and_eq_true, beq_iff_eq] at e3
      exact e3.2
    have hrsvps : (cancelRSVP db e u).1.rsvps = l' := by
      unfold cancelRSVP
      rw [hrem]
      dsimp only
      cases hupd : updateFirst (fun ev => ev.id == e) (decUpd u) db.events with
      | none => rfl
      | some w => obtain ⟨wl, wy⟩ := w; rfl
    rw [hrsvps, e1, e4]
    unfold confirmedCountPair
    rw [hrsvps, e1, e4]
    refine ⟨by simp only [List.length_append, List.length_cons]; omega, ?_, ?_⟩
    · rw [List.countP_append, List.countP_append, List.countP_cons, e3]
      simp only [if_true]
      omega
    · rw [List.countP_append, List.countP_append, List.countP_cons]
      have hy : (anyPair e u y && y.status == RStatus.cancelled) = false := by
        rw [hstatus]
        simp
      rw [hy]
      simp

/-- Witness for C9 amended: the ledger holds a cancelled-status document of
the pair and the confirmed one; Leave removes only the confirmed one. -/
theorem leave_removes_confirmed_record_witness :
    (cancelRSVP ⟨[⟨3, 6, 1, [4], EStatus.upcoming, 20⟩],
       [⟨4, 3, RStatus.waitlist, none⟩, ⟨4, 3, RStatus.confirmed, none⟩]⟩ 3 4).1.rsvps.length + 1 = 2
    ∧ confirmedCountPair (cancelRSVP ⟨[⟨3, 6, 1, [4], EStatus.upcoming, 20⟩],
       [⟨4, 3, RStatus.waitlist, none⟩, ⟨4, 3, RStatus.confirmed, none⟩]⟩ 3 4).1 3 4 + 1
      = confirmedCountPair ⟨[⟨3, 6, 1, [4], EStatus.upcoming, 20⟩],
       [⟨4, 3, RStatus.waitlist, none⟩, ⟨4, 3, RStatus.confirmed, none⟩]⟩ 3 4
    ∧ (cancelRSVP ⟨[⟨3, 6, 1, [4], EStatus.upcoming, 20⟩],
       [⟨4, 3, RStatus.waitlist, none⟩, ⟨4, 3, RStatus.confirmed, none⟩]⟩ 3 4).1.rsvps.countP
        (fun r => anyPair 3 4 r && r.status == RStatus.cancelled)
      = (⟨[⟨3, 6, 1, [4], EStatus.upcoming, 20⟩],
       [⟨4, 3, RStatus.waitlist, none⟩, ⟨4, 3, RStatus.confirmed, none⟩]⟩ : DB).rsvps.countP
        (fun r => anyPair 3 4 r && r.status == RStatus.cancelled) :=
  leave_removes_confirmed_record _ 3 4 (by decide)

end EventPlatform
